import Mathlib

/-!
Shallow embedding of the N-body simulation repository
(src/2_Code/numerical_methods.py and src/2_Code/data_analysis.py) and
verification of its specification claims.

Real numbers model Python/NumPy floats; NumPy float division by zero does
not raise in Python (it yields inf/nan with a warning), so plain real
division with Lean's junk value stands in for it, and separately
instrumented "checked" variants flag exactly the places where a division
by a (near-)zero quantity would be performed.  Python exceptions that can
actually be raised (IndexError from `lst[i]`, TypeError from
`np.polyfit` on an empty vector) are modelled with `Except`.
-/

noncomputable section

namespace NBody

/-- A 3-component real vector, modelling a NumPy length-3 float array. -/
@[ext] structure Vec3 where
  x : ℝ
  y : ℝ
  z : ℝ

instance : Zero Vec3 := ⟨⟨0, 0, 0⟩⟩
instance : Add Vec3 := ⟨fun a b => ⟨a.x + b.x, a.y + b.y, a.z + b.z⟩⟩
instance : Sub Vec3 := ⟨fun a b => ⟨a.x - b.x, a.y - b.y, a.z - b.z⟩⟩
instance : Neg Vec3 := ⟨fun a => ⟨-a.x, -a.y, -a.z⟩⟩
instance : SMul ℝ Vec3 := ⟨fun c a => ⟨c * a.x, c * a.y, c * a.z⟩⟩

@[simp] theorem Vec3.zero_x : (0 : Vec3).x = 0 := rfl
@[simp] theorem Vec3.zero_y : (0 : Vec3).y = 0 := rfl
@[simp] theorem Vec3.zero_z : (0 : Vec3).z = 0 := rfl
@[simp] theorem Vec3.add_x (a b : Vec3) : (a + b).x = a.x + b.x := rfl
@[simp] theorem Vec3.add_y (a b : Vec3) : (a + b).y = a.y + b.y := rfl
@[simp] theorem Vec3.add_z (a b : Vec3) : (a + b).z = a.z + b.z := rfl
@[simp] theorem Vec3.sub_x (a b : Vec3) : (a - b).x = a.x - b.x := rfl
@[simp] theorem Vec3.sub_y (a b : Vec3) : (a - b).y = a.y - b.y := rfl
@[simp] theorem Vec3.sub_z (a b : Vec3) : (a - b).z = a.z - b.z := rfl
@[simp] theorem Vec3.neg_x (a : Vec3) : (-a).x = -a.x := rfl
@[simp] theorem Vec3.neg_y (a : Vec3) : (-a).y = -a.y := rfl
@[simp] theorem Vec3.neg_z (a : Vec3) : (-a).z = -a.z := rfl
@[simp] theorem Vec3.smul_x (c : ℝ) (a : Vec3) : (c • a).x = c * a.x := rfl
@[simp] theorem Vec3.smul_y (c : ℝ) (a : Vec3) : (c • a).y = c * a.y := rfl
@[simp] theorem Vec3.smul_z (c : ℝ) (a : Vec3) : (c • a).z = c * a.z := rfl
@[simp] theorem Vec3.mk_add_mk (a b c d e f : ℝ) :
    (⟨a, b, c⟩ + ⟨d, e, f⟩ : Vec3) = ⟨a + d, b + e, c + f⟩ := rfl
@[simp] theorem Vec3.mk_sub_mk (a b c d e f : ℝ) :
    (⟨a, b, c⟩ - ⟨d, e, f⟩ : Vec3) = ⟨a - d, b - e, c - f⟩ := rfl
@[simp] theorem Vec3.smul_mk (k a b c : ℝ) :
    (k • (⟨a, b, c⟩ : Vec3)) = ⟨k * a, k * b, k * c⟩ := rfl

theorem Vec3.zero_def : (0 : Vec3) = ⟨0, 0, 0⟩ := rfl

@[simp] theorem Vec3.zero_add (a : Vec3) : 0 + a = a := by ext <;> simp
@[simp] theorem Vec3.add_zero (a : Vec3) : a + 0 = a := by ext <;> simp

/-- Euclidean norm of a 3-vector: `np.linalg.norm`. -/
def norm3 (v : Vec3) : ℝ := Real.sqrt (v.x ^ 2 + v.y ^ 2 + v.z ^ 2)

/-- Dot product: `np.dot`. -/
def dot (a b : Vec3) : ℝ := a.x * b.x + a.y * b.y + a.z * b.z

/-- Cross product: `np.cross`. -/
def cross (a b : Vec3) : Vec3 :=
  ⟨a.y * b.z - a.z * b.y, a.z * b.x - a.x * b.z, a.x * b.y - a.y * b.x⟩

theorem norm3_nonneg (v : Vec3) : 0 ≤ norm3 v := Real.sqrt_nonneg _

theorem norm3_neg (v : Vec3) : norm3 (-v) = norm3 v := by
  simp [norm3, neg_pow]

theorem norm3_sub_comm (a b : Vec3) : norm3 (a - b) = norm3 (b - a) := by
  have h : a - b = -(b - a) := by ext <;> simp
  rw [h, norm3_neg]

theorem norm3_eq_zero_iff (v : Vec3) : norm3 v = 0 ↔ v = 0 := by
  constructor
  · intro h
    have hx : v.x ^ 2 + v.y ^ 2 + v.z ^ 2 = 0 := by
      have h0 : (0 : ℝ) ≤ v.x ^ 2 + v.y ^ 2 + v.z ^ 2 := by positivity
      have := Real.sqrt_eq_zero h0 |>.mp h
      exact this
    have hx2 : v.x = 0 ∧ v.y = 0 ∧ v.z = 0 := by
      constructor
      · nlinarith [sq_nonneg v.x, sq_nonneg v.y, sq_nonneg v.z]
      constructor
      · nlinarith [sq_nonneg v.x, sq_nonneg v.y, sq_nonneg v.z]
      · nlinarith [sq_nonneg v.x, sq_nonneg v.y, sq_nonneg v.z]
    ext <;> simp [hx2.1, hx2.2.1, hx2.2.2]
  · intro h
    subst h
    simp [norm3, Real.sqrt_zero]

/-- The hard-coded gravitational constant literal `6.67430e-11` used across
`data_analysis.py`. -/
def Gconst : ℝ := 6.67430e-11

/-- The hard-coded distance guard `1e-10` of
`VerletIntegrator.calculate_accelerations`. -/
def distEps : ℝ := 1e-10

/-- One body of the system: the dict
`{"mass": m, "position": p, "velocity": v, "acceleration": a}` built by
`VerletIntegrator.add_body`. -/
structure Body where
  mass : ℝ
  position : Vec3
  velocity : Vec3
  acceleration : Vec3

/-- The contribution of body `bj` to the acceleration of body `bi`:
one iteration of the inner loop of `calculate_accelerations`
(`acc += G * m_j * r_ij / r**3`, skipped when `r < 1e-10`). -/
def pairContribution (G : ℝ) (bi bj : Body) : Vec3 :=
  let r_ij := bj.position - bi.position
  let r := norm3 r_ij
  if r < distEps then 0 else ((G * bj.mass) / r ^ 3) • r_ij

/-- The acceleration of the body `bi` found at index `i`, as computed by the
inner loop of `VerletIntegrator.calculate_accelerations`: the sum of
`pairContribution` over all `j ≠ i`. -/
def accOfBody (G : ℝ) (bodies : List Body) (bi : Body) (i : ℕ) : Vec3 :=
  bodies.enum.foldl
    (fun acc p => if i = p.1 then acc else acc + pairContribution G bi p.2) 0

/-- `VerletIntegrator.calculate_accelerations`: sets every body's
`acceleration` field from the current positions. -/
def calculate_accelerations (G : ℝ) (bodies : List Body) : List Body :=
  bodies.enum.map (fun p => { p.2 with acceleration := accOfBody G bodies p.2 p.1 })

/-- Step 2 of `VerletIntegrator.simulate`:
`position += velocity*dt + 0.5*acceleration*dt**2`. -/
def updatePositions (dt : ℝ) (bodies : List Body) : List Body :=
  bodies.map (fun b =>
    { b with position := b.position + dt • b.velocity + (0.5 * dt ^ 2) • b.acceleration })

/-- Step 4 of `VerletIntegrator.simulate`, exactly as written in the source:
`velocity += 0.5 * (acceleration + acceleration) * dt` — the same (already
recomputed) acceleration appears twice. -/
def updateVelocities (dt : ℝ) (bodies : List Body) : List Body :=
  bodies.map (fun b =>
    { b with velocity := b.velocity + (0.5 * dt) • (b.acceleration + b.acceleration) })

/-- One iteration of the main loop of `VerletIntegrator.simulate`:
compute accelerations, update positions, recompute accelerations at the new
positions, update velocities. -/
def verletStep (G dt : ℝ) (bodies : List Body) : List Body :=
  updateVelocities dt (calculate_accelerations G (updatePositions dt (calculate_accelerations G bodies)))

/-- Modelled from the spec (§4.2 step 3): the velocity-Verlet velocity
correction `vel' = vel + 0.5*(acc_old + acc_new)*dt`. -/
def specVerletVelocity (dt : ℝ) (vel acc_old acc_new : Vec3) : Vec3 :=
  vel + (0.5 * dt) • (acc_old + acc_new)

/-- Python's `int()` applied to a float: truncation toward zero. -/
def pyInt (x : ℝ) : ℤ := if 0 ≤ x then ⌊x⌋ else -⌊-x⌋

/-- `total_steps = int(total_days * 86400 / dt)` of `VerletIntegrator.simulate`
(clamped to ℕ; `range` of a negative int is empty, matching `Int.toNat`). -/
def total_steps (total_days dt : ℝ) : ℕ := (pyInt (total_days * 86400 / dt)).toNat

/-- `output_steps = int(output_interval * 86400 / dt)` of
`VerletIntegrator.simulate`. -/
def output_steps (output_interval dt : ℝ) : ℕ :=
  (pyInt (output_interval * 86400 / dt)).toNat

/-- The mutable state of `VerletIntegrator` during `simulate`: the bodies and
the recording arrays `positions`, `velocities`, `times` together with the
running `output_idx`. -/
structure SimState where
  bodies : List Body
  positions : List (List Vec3)
  velocities : List (List Vec3)
  times : List ℝ
  output_idx : ℕ

/-- Step 5 of the `simulate` loop: when `t % output_steps == 0`, write the
current positions, velocities and `t*dt/86400` at index `output_idx` and
increment `output_idx`; otherwise leave the state unchanged. -/
def recordSample (os : ℕ) (dt : ℝ) (t : ℕ) (st : SimState) : SimState :=
  if t % os = 0 then
    { st with
      positions := st.positions.set st.output_idx (st.bodies.map Body.position)
      velocities := st.velocities.set st.output_idx (st.bodies.map Body.velocity)
      times := st.times.set st.output_idx ((t : ℝ) * dt / 86400)
      output_idx := st.output_idx + 1 }
  else st

/-- The `for t in range(total_steps)` loop of `simulate`: `fuel` iterations
remain and `t` is the current loop counter.  Each iteration performs one
`verletStep` on the bodies and then the conditional recording. -/
def simLoop (G dt : ℝ) (os : ℕ) : ℕ → ℕ → SimState → SimState
  | 0, _, st => st
  | fuel + 1, t, st =>
      simLoop G dt os fuel (t + 1)
        (recordSample os dt t { st with bodies := verletStep G dt st.bodies })

/-- `VerletIntegrator.simulate` up to (and including) the loop: builds the
zero-initialized recording arrays of length `total_steps//output_steps + 1`,
stores the initial state at index 0, and runs the loop. -/
def simulateState (G : ℝ) (bodies : List Body) (total_days dt output_interval : ℝ) :
    SimState :=
  let ts := total_steps total_days dt
  let os := output_steps output_interval dt
  let n := ts / os + 1
  simLoop G dt os ts 0
    { bodies := bodies
      positions := (List.replicate n (List.replicate bodies.length (0 : Vec3))).set 0
        (bodies.map Body.position)
      velocities := (List.replicate n (List.replicate bodies.length (0 : Vec3))).set 0
        (bodies.map Body.velocity)
      times := (List.replicate n (0 : ℝ)).set 0 0
      output_idx := 0 }

/-- The return value of `VerletIntegrator.simulate`:
`(times[:output_idx], positions[:output_idx], velocities[:output_idx])`. -/
def simulate (G : ℝ) (bodies : List Body) (total_days dt output_interval : ℝ) :
    List ℝ × List (List Vec3) × List (List Vec3) :=
  let st := simulateState G bodies total_days dt output_interval
  (st.times.take st.output_idx, st.positions.take st.output_idx,
    st.velocities.take st.output_idx)

/-- Error conditions for the `Except`-modelled and division-instrumented
parts of `data_analysis.py`.  `invalidInput` is the distinct error condition
the spec demands of the Lyapunov estimator; the code under analysis never
produces it. -/
inductive PyErr where
  | indexError
  | typeError
  | invalidInput
  | zeroDivision
  | smallDivisor
deriving DecidableEq, Repr

/-- Python list indexing `l[i]` for `i ≥ 0`: IndexError when out of range. -/
def pyGet {α : Type} (l : List α) (i : ℕ) : Except PyErr α :=
  match l.get? i with
  | some a => Except.ok a
  | none => Except.error .indexError

/-- Division instrumented to flag an exact division by zero (which in NumPy
floats silently yields inf/nan). -/
def divChecked (a b : ℝ) : Except PyErr ℝ :=
  if b = 0 then Except.error .zeroDivision else Except.ok (a / b)

/-- Division instrumented to flag a divisor smaller than a given floor. -/
def divGuarded (a b floor : ℝ) : Except PyErr ℝ :=
  if b < floor then Except.error .smallDivisor else Except.ok (a / b)

/-- The index pairs `(i, j)` with `i < j < n` visited by the nested
potential-energy loops of `calculate_total_energy`, in loop order. -/
def pePairList (n : ℕ) : List (ℕ × ℕ) :=
  (List.range n).flatMap (fun i => ((List.range n).filter (fun j => i < j)).map (fun j => (i, j)))

/-- `calculate_total_energy(positions, velocities, masses)` of
`data_analysis.py`: kinetic `0.5*Σ m|v|²` plus pairwise potential
`-Σ_{i<j} G m_i m_j / |r_i - r_j|` (no distance guard; division by an exact
zero distance is the junk real value, standing in for NumPy's inf).
Out-of-range indexing is modelled with default `0`; the claims only involve
equal-length inputs. -/
def calculate_total_energy (positions velocities : List Vec3) (masses : List ℝ) : ℝ :=
  let kinetic_energy := 0.5 * ((masses.zip velocities).map (fun p => p.1 * norm3 p.2 ^ 2)).sum
  let potential_energy := ((pePairList positions.length).map (fun p =>
    -(Gconst * masses.getD p.1 0 * masses.getD p.2 0 /
        norm3 (positions.getD p.1 0 - positions.getD p.2 0)))).sum
  kinetic_energy + potential_energy

/-- The potential-energy terms of `calculate_total_energy` with every
division instrumented by `divChecked`: errors exactly when some pairwise
distance is exactly zero. -/
def potentialTermsChecked (positions : List Vec3) (masses : List ℝ) :
    Except PyErr (List ℝ) :=
  (pePairList positions.length).mapM (fun p => do
    let q ← divChecked (Gconst * masses.getD p.1 0 * masses.getD p.2 0)
      (norm3 (positions.getD p.1 0 - positions.getD p.2 0))
    pure (-q))

/-- `calculate_total_energy` with the pairwise division instrumented. -/
def calculate_total_energy_checked (positions velocities : List Vec3)
    (masses : List ℝ) : Except PyErr ℝ := do
  let terms ← potentialTermsChecked positions masses
  pure (0.5 * ((masses.zip velocities).map (fun p => p.1 * norm3 p.2 ^ 2)).sum + terms.sum)

/-- The specific orbital energy `energy = 0.5*v**2 - G*M/r` computed by
`calculate_orbit_elements`. -/
def specific_energy (position velocity : Vec3) (mass_primary : ℝ) : ℝ :=
  0.5 * norm3 velocity ^ 2 - Gconst * mass_primary / norm3 position

/-- The eccentricity vector
`e_vector = (1/(G*M)) * ((v**2 - G*M/r)*position - (position·velocity)*velocity)`
computed by `calculate_orbit_elements`. -/
def eVector (position velocity : Vec3) (mass_primary : ℝ) : Vec3 :=
  (1 / (Gconst * mass_primary)) •
    ((norm3 velocity ^ 2 - Gconst * mass_primary / norm3 position) • position -
      dot position velocity • velocity)

/-- The semi-major axis field of the result of `calculate_orbit_elements`:
a finite real for a bound orbit, `np.inf` otherwise. -/
inductive PyFloat where
  | fin (x : ℝ)
  | inf

/-- The record returned by `calculate_orbit_elements`. -/
structure OrbitElements where
  semi_major_axis : PyFloat
  eccentricity : ℝ
  inclination : ℝ
  ascending_node : ℝ
  argument_of_periapsis : ℝ

/-- `calculate_orbit_elements(position, velocity, mass_primary)` of
`data_analysis.py` (division by zero is the junk real value, as for NumPy
floats which warn rather than raise). -/
def calculate_orbit_elements (position velocity : Vec3) (mass_primary : ℝ) :
    OrbitElements :=
  let energy := specific_energy position velocity mass_primary
  let a : PyFloat :=
    if energy < 0 then .fin (-(Gconst * mass_primary) / (2 * energy)) else .inf
  let h := cross position velocity
  let h_norm := norm3 h
  let e_vector := eVector position velocity mass_primary
  let e := norm3 e_vector
  let i := if h_norm > 0 then Real.arccos (dot h ⟨0, 0, 1⟩ / h_norm) else 0
  let n_vector := cross ⟨0, 0, 1⟩ h
  let n_norm := norm3 n_vector
  let Omega0 := if n_norm > 0 then Real.arccos (n_vector.x / n_norm) else 0
  let Omega := if n_vector.y < 0 then 2 * Real.pi - Omega0 else Omega0
  let w :=
    if e < 1 ∧ n_norm > 0 then
      let w0 := Real.arccos (dot n_vector e_vector / (n_norm * e))
      if e_vector.z < 0 then 2 * Real.pi - w0 else w0
    else 0
  { semi_major_axis := a
    eccentricity := e
    inclination := i
    ascending_node := Omega
    argument_of_periapsis := w }

/-- The `argument_of_periapsis` computation of `calculate_orbit_elements`
with its division instrumented by `divChecked`: errors exactly when the
branch `e < 1 and n_norm > 0` is taken with divisor `n_norm * e = 0`. -/
def argPeriapsisChecked (position velocity : Vec3) (mass_primary : ℝ) :
    Except PyErr ℝ :=
  let h := cross position velocity
  let e_vector := eVector position velocity mass_primary
  let e := norm3 e_vector
  let n_vector := cross ⟨0, 0, 1⟩ h
  let n_norm := norm3 n_vector
  if e < 1 ∧ n_norm > 0 then do
    let q ← divChecked (dot n_vector e_vector) (n_norm * e)
    let w0 := Real.arccos q
    pure (if e_vector.z < 0 then 2 * Real.pi - w0 else w0)
  else pure 0

/-- The separation series of `calculate_lyapunov_exponent`:
`[norm(traj1[1] - traj2[1]) for traj1, traj2 in zip(trajectory1, trajectory2)]`.
Each element indexes only entry 1 of the two snapshots (IndexError when a
snapshot is shorter); `zip` truncates to the shorter trajectory. -/
def pairDistances : List (List Vec3) → List (List Vec3) → Except PyErr (List ℝ)
  | s1 :: r1, s2 :: r2 => do
      let p1 ← pyGet s1 1
      let p2 ← pyGet s2 1
      let rest ← pairDistances r1 r2
      pure (norm3 (p1 - p2) :: rest)
  | _, _ => pure []

/-- The ordinary least-squares slope of a degree-1 fit,
`(n Σxy - Σx Σy) / (n Σx² - (Σx)²)`: the value of `np.polyfit(x, y, 1)[0]`
on well-posed input. -/
def polyfitSlope (xs ys : List ℝ) : ℝ :=
  let n : ℝ := xs.length
  let sx := xs.sum
  let sy := ys.sum
  let sxy := ((xs.zip ys).map (fun p => p.1 * p.2)).sum
  let sxx := (xs.map (fun x => x ^ 2)).sum
  (n * sxy - sx * sy) / (n * sxx - sx ^ 2)

/-- `np.polyfit(x, y, 1)[0]`: raises TypeError on an empty vector, otherwise
the least-squares slope. -/
def polyfit1 (xs ys : List ℝ) : Except PyErr ℝ :=
  if xs.length = 0 then Except.error .typeError else Except.ok (polyfitSlope xs ys)

/-- `calculate_lyapunov_exponent(trajectory1, trajectory2, time_step)` of
`data_analysis.py`.  The division `dist / initial_distance` and the
logarithm are the junk-valued real operations (NumPy warns and yields
nan/inf rather than raising); the only raisable exceptions are the
IndexError of `distances[0]` / `traj[1]` and the TypeError of `np.polyfit`
on an empty window. -/
def calculate_lyapunov_exponent (trajectory1 trajectory2 : List (List Vec3))
    (time_step : ℝ) : Except PyErr (ℝ × List ℝ × List ℝ) := do
  let distances ← pairDistances trajectory1 trajectory2
  let initial_distance ← pyGet distances 0
  let log_distances := distances.map (fun d => Real.log (d / initial_distance))
  let times := (List.range distances.length).map (fun i : ℕ => (i : ℝ) * time_step / 86400)
  let valid_indices := (pyInt ((times.length : ℝ) * 0.5)).toNat
  let slope ← polyfit1 (times.take valid_indices) (log_distances.take valid_indices)
  pure (slope, times, log_distances)

/-- Whether an `Except`-modelled computation signalled the distinct
`invalidInput` condition. -/
def isInvalidInput {α : Type} : Except PyErr α → Bool
  | Except.error .invalidInput => true
  | _ => false

/-- `pairContribution` with its division instrumented by `divGuarded`:
errors exactly when the unguarded branch would divide by a cubed distance
below `distEps ^ 3` (i.e. a distance below `distEps`). -/
def pairContributionChecked (G : ℝ) (bi bj : Body) : Except PyErr Vec3 :=
  let r_ij := bj.position - bi.position
  let r := norm3 r_ij
  if r < distEps then pure 0
  else do
    let c ← divGuarded (G * bj.mass) (r ^ 3) (distEps ^ 3)
    pure (c • r_ij)

/-- `accOfBody` with every pair contribution instrumented. -/
def accOfBodyChecked (G : ℝ) (bodies : List Body) (bi : Body) (i : ℕ) :
    Except PyErr Vec3 :=
  bodies.enum.foldlM
    (fun acc p =>
      if i = p.1 then pure acc
      else do
        let c ← pairContributionChecked G bi p.2
        pure (acc + c)) 0

/-- `calculate_accelerations` with every division instrumented. -/
def calculate_accelerations_checked (G : ℝ) (bodies : List Body) :
    Except PyErr (List Body) :=
  bodies.enum.mapM (fun p => do
    let a ← accOfBodyChecked G bodies p.2 p.1
    pure { p.2 with acceleration := a })

/-! ### General helper lemmas -/

theorem mapM_ok {α β : Type} (f : α → Except PyErr β) (g : α → β)
    (l : List α) (h : ∀ x ∈ l, f x = Except.ok (g x)) :
    l.mapM f = Except.ok (l.map g) := by
  induction l with
  | nil => rfl
  | cons a t ih =>
    rw [List.mapM_cons, h a (by simp), ih (fun x hx => h x (by simp [hx]))]
    rfl

theorem foldlM_ok {α β : Type} (f : β → α → β) (g : β → α → Except PyErr β)
    (h : ∀ b a, g b a = Except.ok (f b a)) :
    ∀ (l : List α) (b : β), l.foldlM g b = Except.ok (l.foldl f b) := by
  intro l
  induction l with
  | nil => intro b; rfl
  | cons a t ih =>
    intro b
    rw [List.foldlM_cons, h, List.foldl_cons]
    simpa using ih (f b a)

theorem pePairList_mem {n : ℕ} {p : ℕ × ℕ} (h : p ∈ pePairList n) :
    p.1 < p.2 ∧ p.2 < n := by
  simp only [pePairList, List.mem_flatMap, List.mem_map, List.mem_filter,
    List.mem_range, decide_eq_true_eq] at h
  obtain ⟨i, hi, j, ⟨hj, hij⟩, rfl⟩ := h
  exact ⟨hij, hj⟩

theorem distEps_pos : 0 < distEps := by norm_num [distEps]

theorem pairContribution_skew (G : ℝ) (bi bj : Body)
    (h : distEps ≤ norm3 (bj.position - bi.position)) :
    bi.mass • pairContribution G bi bj = -(bj.mass • pairContribution G bj bi) := by
  have hsymm : norm3 (bi.position - bj.position) = norm3 (bj.position - bi.position) :=
    norm3_sub_comm _ _
  simp only [pairContribution, hsymm, if_neg (not_lt.mpr h)]
  ext <;> simp <;> ring

theorem pairContributionChecked_ok (G : ℝ) (bi bj : Body) :
    pairContributionChecked G bi bj = Except.ok (pairContribution G bi bj) := by
  simp only [pairContributionChecked, pairContribution]
  by_cases h : norm3 (bj.position - bi.position) < distEps
  · simp [h, pure, Except.pure]
  · have hle : distEps ^ 3 ≤ norm3 (bj.position - bi.position) ^ 3 :=
      pow_le_pow_left₀ (le_of_lt distEps_pos) (not_lt.mp h) 3
    simp only [if_neg h, divGuarded, if_neg (not_lt.mpr hle)]
    rfl

theorem accOfBodyChecked_ok (G : ℝ) (bodies : List Body) (bi : Body) (i : ℕ) :
    accOfBodyChecked G bodies bi i = Except.ok (accOfBody G bodies bi i) := by
  apply foldlM_ok
  intro b p
  by_cases h : i = p.1
  · simp [h, pure, Except.pure]
  · simp only [if_neg h, pairContributionChecked_ok]
    rfl

/-- Claim C5: `calculate_accelerations` is total — the instrumented variant,
which signals an error whenever a division by a cubed distance below
`distEps³` would be performed, always returns `ok` of the unchecked result,
and a pair at distance below `distEps` contributes zero (the pair is
skipped, no error is raised). -/
theorem accelerations_total_and_guarded (G : ℝ) (bodies : List Body) :
    calculate_accelerations_checked G bodies =
      Except.ok (calculate_accelerations G bodies) ∧
    ∀ bi bj : Body, norm3 (bj.position - bi.position) < distEps →
      pairContribution G bi bj = 0 := by
  constructor
  · apply mapM_ok
    intro p _
    simp [accOfBodyChecked_ok, Except.bind]
  · intro bi bj h
    simp [pairContribution, h]

/-- Witness for C5: on a system of two coincident bodies the checked
accelerations succeed and the coincident pair contributes zero. -/
theorem accelerations_total_and_guarded_witness :
    (calculate_accelerations_checked 1
        [⟨1, ⟨0, 0, 0⟩, 0, 0⟩, ⟨2, ⟨0, 0, 0⟩, 0, 0⟩] =
      Except.ok (calculate_accelerations 1
        [⟨1, ⟨0, 0, 0⟩, 0, 0⟩, ⟨2, ⟨0, 0, 0⟩, 0, 0⟩])) ∧
    norm3 ((⟨2, ⟨0, 0, 0⟩, 0, 0⟩ : Body).position -
        (⟨1, ⟨0, 0, 0⟩, 0, 0⟩ : Body).position) < distEps ∧
    pairContribution 1 ⟨1, ⟨0, 0, 0⟩, 0, 0⟩ ⟨2, ⟨0, 0, 0⟩, 0, 0⟩ = 0 := by
  have h : norm3 ((⟨2, ⟨0, 0, 0⟩, 0, 0⟩ : Body).position -
      (⟨1, ⟨0, 0, 0⟩, 0, 0⟩ : Body).position) < distEps := by
    simp [norm3, Real.sqrt_zero, distEps]
    norm_num
  exact ⟨(accelerations_total_and_guarded 1
      [⟨1, ⟨0, 0, 0⟩, 0, 0⟩, ⟨2, ⟨0, 0, 0⟩, 0, 0⟩]).1, h,
    (accelerations_total_and_guarded 1
      [⟨1, ⟨0, 0, 0⟩, 0, 0⟩, ⟨2, ⟨0, 0, 0⟩, 0, 0⟩]).2 _ _ h⟩

/-- Claim C4: Newton's third law for the force model — for any two bodies at
distance at least `distEps`, mass-weighted pair contributions are opposite,
and for a two-body system the full accelerations of
`calculate_accelerations` satisfy `m₀·acc₀ = −m₁·acc₁`. -/
theorem newton_third_law (G : ℝ) (bi bj b0 b1 : Body) :
    (distEps ≤ norm3 (bj.position - bi.position) →
      bi.mass • pairContribution G bi bj = -(bj.mass • pairContribution G bj bi)) ∧
    (distEps ≤ norm3 (b1.position - b0.position) →
      b0.mass • ((calculate_accelerations G [b0, b1]).getD 0 b0).acceleration =
        -(b1.mass • ((calculate_accelerations G [b0, b1]).getD 1 b1).acceleration)) := by
  constructor
  · exact pairContribution_skew G bi bj
  · intro h
    have h0 : ((calculate_accelerations G [b0, b1]).getD 0 b0).acceleration =
        pairContribution G b0 b1 := by
      simp [calculate_accelerations, accOfBody, List.enum]
    have h1 : ((calculate_accelerations G [b0, b1]).getD 1 b1).acceleration =
        pairContribution G b1 b0 := by
      simp [calculate_accelerations, accOfBody, List.enum]
    rw [h0, h1]
    exact pairContribution_skew G b0 b1 h

/-- Witness for C4: concrete two-body system at distance 3. -/
theorem newton_third_law_witness :
    distEps ≤ norm3 ((⟨2, ⟨3, 0, 0⟩, 0, 0⟩ : Body).position -
        (⟨1, ⟨0, 0, 0⟩, 0, 0⟩ : Body).position) ∧
    ((⟨1, ⟨0, 0, 0⟩, 0, 0⟩ : Body).mass •
        pairContribution 1 ⟨1, ⟨0, 0, 0⟩, 0, 0⟩ ⟨2, ⟨3, 0, 0⟩, 0, 0⟩ =
      -((⟨2, ⟨3, 0, 0⟩, 0, 0⟩ : Body).mass •
        pairContribution 1 ⟨2, ⟨3, 0, 0⟩, 0, 0⟩ ⟨1, ⟨0, 0, 0⟩, 0, 0⟩)) ∧
    ((⟨1, ⟨0, 0, 0⟩, 0, 0⟩ : Body).mass •
        ((calculate_accelerations 1 [⟨1, ⟨0, 0, 0⟩, 0, 0⟩, ⟨2, ⟨3, 0, 0⟩, 0, 0⟩]).getD 0
          ⟨1, ⟨0, 0, 0⟩, 0, 0⟩).acceleration =
      -((⟨2, ⟨3, 0, 0⟩, 0, 0⟩ : Body).mass •
        ((calculate_accelerations 1 [⟨1, ⟨0, 0, 0⟩, 0, 0⟩, ⟨2, ⟨3, 0, 0⟩, 0, 0⟩]).getD 1
          ⟨2, ⟨3, 0, 0⟩, 0, 0⟩).acceleration)) := by
  have h : distEps ≤ norm3 ((⟨2, ⟨3, 0, 0⟩, 0, 0⟩ : Body).position -
      (⟨1, ⟨0, 0, 0⟩, 0, 0⟩ : Body).position) := by
    have h9 : Real.sqrt 9 = 3 := by
      rw [show (9 : ℝ) = 3 ^ 2 by norm_num, Real.sqrt_sq (by norm_num)]
    simp only [norm3]
    norm_num [h9, distEps]
  exact ⟨h,
    (newton_third_law 1 ⟨1, ⟨0, 0, 0⟩, 0, 0⟩ ⟨2, ⟨3, 0, 0⟩, 0, 0⟩
      ⟨1, ⟨0, 0, 0⟩, 0, 0⟩ ⟨2, ⟨3, 0, 0⟩, 0, 0⟩).1 h,
    (newton_third_law 1 ⟨1, ⟨0, 0, 0⟩, 0, 0⟩ ⟨2, ⟨3, 0, 0⟩, 0, 0⟩
      ⟨1, ⟨0, 0, 0⟩, 0, 0⟩ ⟨2, ⟨3, 0, 0⟩, 0, 0⟩).2 h⟩

end NBody

namespace NBody

theorem Vec3.sub_eq_zero_iff (a b : Vec3) : a - b = 0 ↔ a = b := by
  constructor
  · intro h
    have hx := congrArg Vec3.x h
    have hy := congrArg Vec3.y h
    have hz := congrArg Vec3.z h
    simp only [Vec3.sub_x, Vec3.sub_y, Vec3.sub_z, Vec3.zero_x, Vec3.zero_y,
      Vec3.zero_z, sub_eq_zero] at hx hy hz
    ext <;> assumption
  · intro h
    rw [h]
    ext <;> simp

/-- Claim C10: `calculate_total_energy` performs the pairwise
potential-energy division with no distance guard — under the precondition
that all pairwise positions are distinct the instrumented variant succeeds
and agrees with the unchecked one, while on an input with two coincident
positions the instrumented variant flags a division by an exactly zero
distance. -/
theorem total_energy_division_unguarded :
    (∀ (positions velocities : List Vec3) (masses : List ℝ),
      (∀ i j : ℕ, i < j → j < positions.length →
        positions.getD i 0 ≠ positions.getD j 0) →
      calculate_total_energy_checked positions velocities masses =
        Except.ok (calculate_total_energy positions velocities masses)) ∧
    calculate_total_energy_checked [⟨0, 0, 0⟩, ⟨0, 0, 0⟩] [0, 0] [1, 1] =
      Except.error .zeroDivision := by
  constructor
  · intro positions velocities masses hdist
    have hterms : potentialTermsChecked positions masses =
        Except.ok ((pePairList positions.length).map (fun p =>
          -(Gconst * masses.getD p.1 0 * masses.getD p.2 0 /
              norm3 (positions.getD p.1 0 - positions.getD p.2 0)))) := by
      apply mapM_ok
      intro p hp
      obtain ⟨hij, hj⟩ := pePairList_mem hp
      have hne : positions.getD p.1 0 ≠ positions.getD p.2 0 := hdist _ _ hij hj
      have hnorm : norm3 (positions.getD p.1 0 - positions.getD p.2 0) ≠ 0 := by
        rw [Ne, norm3_eq_zero_iff, Vec3.sub_eq_zero_iff]
        exact hne
      simp only [divChecked, if_neg hnorm]
      rfl
    simp only [calculate_total_energy_checked, hterms, calculate_total_energy]
    rfl
  · have hz : norm3 ((⟨0, 0, 0⟩ : Vec3) - ⟨0, 0, 0⟩) = 0 := by
      simp [norm3]
    have hpe : potentialTermsChecked [⟨0, 0, 0⟩, ⟨0, 0, 0⟩] ([1, 1] : List ℝ) =
        Except.error PyErr.zeroDivision := by
      simp only [potentialTermsChecked]
      rw [show pePairList ([⟨0, 0, 0⟩, ⟨0, 0, 0⟩] : List Vec3).length = [(0, 1)] from rfl]
      rw [List.mapM_cons]
      simp only [divChecked, norm3]
      norm_num
      rfl
    simp only [calculate_total_energy_checked, hpe]
    rfl

/-- Witness for C10: a two-body input with distinct positions on which the
checked energy computation succeeds. -/
theorem total_energy_division_unguarded_witness :
    (∀ i j : ℕ, i < j → j < ([⟨0, 0, 0⟩, ⟨1, 0, 0⟩] : List Vec3).length →
      ([⟨0, 0, 0⟩, ⟨1, 0, 0⟩] : List Vec3).getD i 0 ≠
        ([⟨0, 0, 0⟩, ⟨1, 0, 0⟩] : List Vec3).getD j 0) ∧
    calculate_total_energy_checked [⟨0, 0, 0⟩, ⟨1, 0, 0⟩] [0, 0] [1, 1] =
      Except.ok (calculate_total_energy [⟨0, 0, 0⟩, ⟨1, 0, 0⟩] [0, 0] [1, 1]) := by
  have hd : ∀ i j : ℕ, i < j → j < ([⟨0, 0, 0⟩, ⟨1, 0, 0⟩] : List Vec3).length →
      ([⟨0, 0, 0⟩, ⟨1, 0, 0⟩] : List Vec3).getD i 0 ≠
        ([⟨0, 0, 0⟩, ⟨1, 0, 0⟩] : List Vec3).getD j 0 := by
    intro i j hij hj
    simp only [List.length_cons, List.length_nil] at hj
    interval_cases j
    · omega
    · interval_cases i
      · intro h
        have := congrArg Vec3.x h
        simp at this
  exact ⟨hd, total_energy_division_unguarded.1 _ _ _ hd⟩

end NBody

namespace NBody

@[simp] theorem bindE_error {α β : Type} (e : PyErr) (f : α → Except PyErr β) :
    (Except.error e >>= f : Except PyErr β) = Except.error e := rfl

@[simp] theorem bindE_ok {α β : Type} (a : α) (f : α → Except PyErr β) :
    (Except.ok a >>= f : Except PyErr β) = f a := rfl

theorem pyGet_error_eq {α : Type} {l : List α} {i : ℕ} {e : PyErr}
    (h : pyGet l i = Except.error e) : e = PyErr.indexError := by
  unfold pyGet at h
  cases hl : l.get? i with
  | some a => rw [hl] at h; simp at h
  | none => rw [hl] at h; injection h with h'; exact h'.symm

theorem polyfit1_error {xs ys : List ℝ} {e : PyErr}
    (h : polyfit1 xs ys = Except.error e) : e = PyErr.typeError := by
  unfold polyfit1 at h
  by_cases h0 : xs.length = 0
  · rw [if_pos h0] at h; injection h with h'; exact h'.symm
  · rw [if_neg h0] at h; simp at h

theorem pairDistances_error :
    ∀ (t1 t2 : List (List Vec3)) {e : PyErr},
      pairDistances t1 t2 = Except.error e → e = PyErr.indexError := by
  intro t1
  induction t1 with
  | nil => intro t2 e h; cases t2 <;> simp [pairDistances, pure, Except.pure] at h
  | cons s1 r1 ih =>
    intro t2 e h
    cases t2 with
    | nil => simp [pairDistances, pure, Except.pure] at h
    | cons s2 r2 =>
      simp only [pairDistances] at h
      cases hp1 : pyGet s1 1 with
      | error e1 =>
        rw [hp1] at h
        simp only [bindE_error] at h
        injection h with h'
        exact h' ▸ pyGet_error_eq hp1
      | ok p1 =>
        rw [hp1] at h
        simp only [bindE_ok] at h
        cases hp2 : pyGet s2 1 with
        | error e2 =>
          rw [hp2] at h
          simp only [bindE_error] at h
          injection h with h'
          exact h' ▸ pyGet_error_eq hp2
        | ok p2 =>
          rw [hp2] at h
          simp only [bindE_ok] at h
          cases hr : pairDistances r1 r2 with
          | error e3 =>
            rw [hr] at h
            simp only [bindE_error] at h
            injection h with h'
            exact h' ▸ ih r2 hr
          | ok rest =>
            rw [hr] at h
            simp [pure, Except.pure] at h

theorem isInvalidInput_bind_polyfit {X Y : List ℝ}
    {g : ℝ → Except PyErr (ℝ × List ℝ × List ℝ)}
    (hg : ∀ s, isInvalidInput (g s) = false) :
    isInvalidInput (polyfit1 X Y >>= g) = false := by
  cases hp : polyfit1 X Y with
  | error e =>
    simp only [bindE_error]
    have := polyfit1_error hp
    subst this
    rfl
  | ok s =>
    simp only [bindE_ok]
    exact hg s

/-- Claim C3 (amended): `calculate_lyapunov_exponent` performs no validation
of the initial separation and never signals the InvalidInput condition on
any input — in particular, with identical initial samples it divides by the
zero initial distance and still returns a numeric result. -/
theorem lyapunov_never_invalid_input (t1 t2 : List (List Vec3)) (dt : ℝ) :
    isInvalidInput (calculate_lyapunov_exponent t1 t2 dt) = false := by
  simp only [calculate_lyapunov_exponent]
  cases hd : pairDistances t1 t2 with
  | error e =>
    simp only [bindE_error]
    have := pairDistances_error t1 t2 hd
    subst this
    rfl
  | ok ds =>
    simp only [bindE_ok]
    cases hg : pyGet ds 0 with
    | error e =>
      simp only [bindE_error]
      have := pyGet_error_eq hg
      subst this
      rfl
    | ok d0 =>
      simp only [bindE_ok]
      exact isInvalidInput_bind_polyfit (fun s => rfl)

theorem pairDistances_congr :
    ∀ (t1 t1' t2 t2' : List (List Vec3)),
      t1.map (fun s => s.get? 1) = t1'.map (fun s => s.get? 1) →
      t2.map (fun s => s.get? 1) = t2'.map (fun s => s.get? 1) →
      pairDistances t1 t2 = pairDistances t1' t2' := by
  intro t1
  induction t1 with
  | nil =>
    intro t1' t2 t2' h1 h2
    have h1' : t1' = [] := by
      cases t1' with
      | nil => rfl
      | cons a b => simp at h1
    subst h1'
    cases t2 <;> cases t2' <;> rfl
  | cons s1 r1 ih =>
    intro t1' t2 t2' h1 h2
    cases t1' with
    | nil => simp at h1
    | cons s1' r1' =>
      simp only [List.map_cons, List.cons.injEq] at h1
      obtain ⟨hs1, hr1⟩ := h1
      cases t2 with
      | nil =>
        cases t2' with
        | nil => rfl
        | cons s2' r2' => simp at h2
      | cons s2 r2 =>
        cases t2' with
        | nil => simp at h2
        | cons s2' r2' =>
          simp only [List.map_cons, List.cons.injEq] at h2
          obtain ⟨hs2, hr2⟩ := h2
          simp only [pairDistances]
          rw [show pyGet s1 1 = pyGet s1' 1 by unfold pyGet; rw [hs1]]
          rw [show pyGet s2 1 = pyGet s2' 1 by unfold pyGet; rw [hs2]]
          rw [ih r1' r2 r2' hr1 hr2]

/-- Claim C9: the Lyapunov estimator depends only on the index-1 entry of
each snapshot — two pairs of trajectories agreeing at index 1 of every
snapshot produce identical results. -/
theorem lyapunov_depends_only_on_body1 (t1 t2 t1' t2' : List (List Vec3)) (dt : ℝ)
    (h1 : t1.map (fun s => s.get? 1) = t1'.map (fun s => s.get? 1))
    (h2 : t2.map (fun s => s.get? 1) = t2'.map (fun s => s.get? 1)) :
    calculate_lyapunov_exponent t1 t2 dt = calculate_lyapunov_exponent t1' t2' dt := by
  simp only [calculate_lyapunov_exponent]
  rw [pairDistances_congr t1 t1' t2 t2' h1 h2]

/-- Witness for C9: changing the index-0 body in both trajectories leaves
the Lyapunov result unchanged. -/
theorem lyapunov_depends_only_on_body1_witness :
    ([[⟨1, 0, 0⟩, ⟨2, 0, 0⟩]] : List (List Vec3)).map (fun s => s.get? 1) =
      ([[⟨9, 9, 9⟩, ⟨2, 0, 0⟩]] : List (List Vec3)).map (fun s => s.get? 1) ∧
    ([[⟨0, 0, 0⟩, ⟨3, 0, 0⟩]] : List (List Vec3)).map (fun s => s.get? 1) =
      ([[⟨5, 5, 5⟩, ⟨3, 0, 0⟩]] : List (List Vec3)).map (fun s => s.get? 1) ∧
    calculate_lyapunov_exponent [[⟨1, 0, 0⟩, ⟨2, 0, 0⟩]] [[⟨0, 0, 0⟩, ⟨3, 0, 0⟩]] 3600 =
      calculate_lyapunov_exponent [[⟨9, 9, 9⟩, ⟨2, 0, 0⟩]] [[⟨5, 5, 5⟩, ⟨3, 0, 0⟩]] 3600 :=
  ⟨rfl, rfl,
    lyapunov_depends_only_on_body1 [[⟨1, 0, 0⟩, ⟨2, 0, 0⟩]] [[⟨0, 0, 0⟩, ⟨3, 0, 0⟩]]
      [[⟨9, 9, 9⟩, ⟨2, 0, 0⟩]] [[⟨5, 5, 5⟩, ⟨3, 0, 0⟩]] 3600 rfl rfl⟩

end NBody

namespace NBody

/-- Counterexample for C3: on two identical trajectories (initial separation
exactly 0) the estimator returns a numeric `ok` triple — the log-distances
are `log(0/0)` (NaN under floating point, junk value 0 in the real model) —
instead of signalling InvalidInput. -/
theorem lyapunov_zero_separation_returns_numeric :
    pairDistances
        [[⟨0, 0, 0⟩, ⟨1, 0, 0⟩], [⟨0, 0, 0⟩, ⟨1, 0, 0⟩],
          [⟨0, 0, 0⟩, ⟨1, 0, 0⟩], [⟨0, 0, 0⟩, ⟨1, 0, 0⟩]]
        [[⟨0, 0, 0⟩, ⟨1, 0, 0⟩], [⟨0, 0, 0⟩, ⟨1, 0, 0⟩],
          [⟨0, 0, 0⟩, ⟨1, 0, 0⟩], [⟨0, 0, 0⟩, ⟨1, 0, 0⟩]] =
      Except.ok [0, 0, 0, 0] ∧
    calculate_lyapunov_exponent
        [[⟨0, 0, 0⟩, ⟨1, 0, 0⟩], [⟨0, 0, 0⟩, ⟨1, 0, 0⟩],
          [⟨0, 0, 0⟩, ⟨1, 0, 0⟩], [⟨0, 0, 0⟩, ⟨1, 0, 0⟩]]
        [[⟨0, 0, 0⟩, ⟨1, 0, 0⟩], [⟨0, 0, 0⟩, ⟨1, 0, 0⟩],
          [⟨0, 0, 0⟩, ⟨1, 0, 0⟩], [⟨0, 0, 0⟩, ⟨1, 0, 0⟩]] 86400 =
      Except.ok (0, [0, 1, 2, 3], [0, 0, 0, 0]) := by
  have hD : pairDistances
      [[⟨0, 0, 0⟩, ⟨1, 0, 0⟩], [⟨0, 0, 0⟩, ⟨1, 0, 0⟩],
        [⟨0, 0, 0⟩, ⟨1, 0, 0⟩], [⟨0, 0, 0⟩, ⟨1, 0, 0⟩]]
      [[⟨0, 0, 0⟩, ⟨1, 0, 0⟩], [⟨0, 0, 0⟩, ⟨1, 0, 0⟩],
        [⟨0, 0, 0⟩, ⟨1, 0, 0⟩], [⟨0, 0, 0⟩, ⟨1, 0, 0⟩]] =
      Except.ok [0, 0, 0, 0] := by
    simp [pairDistances, pyGet, norm3, pure, Except.pure]
  refine ⟨hD, ?_⟩
  simp only [calculate_lyapunov_exponent, hD, bindE_ok]
  rw [show pyGet ([0, 0, 0, 0] : List ℝ) 0 = Except.ok 0 from rfl]
  simp only [bindE_ok]
  have h1 : (List.range ([0, 0, 0, 0] : List ℝ).length).map
      (fun i : ℕ => (i : ℝ) * 86400 / 86400) = [0, 1, 2, 3] := by
    norm_num [List.range_succ]
  have h3 : ([0, 0, 0, 0] : List ℝ).map (fun d => Real.log (d / 0)) =
      [0, 0, 0, 0] := by
    simp
  rw [h1, h3]
  have h2 : (pyInt ((([0, 1, 2, 3] : List ℝ).length : ℝ) * 0.5)).toNat = 2 := by
    norm_num [pyInt]
    rfl
  rw [h2]
  have h4 : polyfit1 (([0, 1, 2, 3] : List ℝ).take 2) (([0, 0, 0, 0] : List ℝ).take 2) =
      Except.ok 0 := by
    norm_num [polyfit1, polyfitSlope]
  rw [h4]
  rfl

end NBody

namespace NBody

/-- Claim C7: the semi-major axis returned by `calculate_orbit_elements` is
`-G*M/(2*energy)` whenever the specific orbital energy is negative, and
infinite whenever it is nonnegative. -/
theorem semi_major_axis_cases (position velocity : Vec3) (mass_primary : ℝ) :
    (specific_energy position velocity mass_primary < 0 →
      (calculate_orbit_elements position velocity mass_primary).semi_major_axis =
        PyFloat.fin (-(Gconst * mass_primary) /
          (2 * specific_energy position velocity mass_primary))) ∧
    (0 ≤ specific_energy position velocity mass_primary →
      (calculate_orbit_elements position velocity mass_primary).semi_major_axis =
        PyFloat.inf) := by
  constructor
  · intro h
    simp only [calculate_orbit_elements, if_pos h]
  · intro h
    simp only [calculate_orbit_elements, if_neg (not_lt.mpr h)]

/-- Witness for C7: a bound input (zero velocity) and an unbound input
(speed 1 at distance 1, far above escape speed for `G*M = Gconst`). -/
theorem semi_major_axis_cases_witness :
    (specific_energy ⟨1, 0, 0⟩ 0 1 < 0 ∧
      (calculate_orbit_elements ⟨1, 0, 0⟩ 0 1).semi_major_axis =
        PyFloat.fin (-(Gconst * 1) / (2 * specific_energy ⟨1, 0, 0⟩ 0 1))) ∧
    (0 ≤ specific_energy ⟨1, 0, 0⟩ ⟨1, 0, 0⟩ 1 ∧
      (calculate_orbit_elements ⟨1, 0, 0⟩ ⟨1, 0, 0⟩ 1).semi_major_axis =
        PyFloat.inf) := by
  have hsq1 : norm3 (⟨1, 0, 0⟩ : Vec3) = 1 := by
    simp [norm3]
  have hb : specific_energy ⟨1, 0, 0⟩ 0 1 < 0 := by
    simp only [specific_energy, hsq1]
    norm_num [norm3, Gconst]
  have hu : 0 ≤ specific_energy ⟨1, 0, 0⟩ ⟨1, 0, 0⟩ 1 := by
    simp only [specific_energy, hsq1]
    norm_num [Gconst]
  exact ⟨⟨hb, (semi_major_axis_cases ⟨1, 0, 0⟩ 0 1).1 hb⟩,
    ⟨hu, (semi_major_axis_cases ⟨1, 0, 0⟩ ⟨1, 0, 0⟩ 1).2 hu⟩⟩

/-- Claim C8 is violated by the code on circular inclined orbits: for
position (1,0,0), velocity (0,0,1) and primary mass `10^15/66743` (so that
`G*M = 1` exactly) the eccentricity is exactly 0 and the node vector has
norm 1, yet the `argument_of_periapsis` branch guard `e < 1 and n_norm > 0`
is taken, so the code divides by `n_norm * e = 0`: the instrumented variant
flags the zero division, and the junk-valued real model yields
`arccos(0/0 = 0) = π/2`, not the 0 demanded by the claim. -/
theorem arg_periapsis_zero_division_on_circular :
    norm3 (eVector ⟨1, 0, 0⟩ ⟨0, 0, 1⟩ (10 ^ 15 / 66743)) = 0 ∧
    norm3 (cross ⟨0, 0, 1⟩ (cross ⟨1, 0, 0⟩ ⟨0, 0, 1⟩)) = 1 ∧
    argPeriapsisChecked ⟨1, 0, 0⟩ ⟨0, 0, 1⟩ (10 ^ 15 / 66743) =
      Except.error PyErr.zeroDivision ∧
    (calculate_orbit_elements ⟨1, 0, 0⟩ ⟨0, 0, 1⟩ (10 ^ 15 / 66743)).argument_of_periapsis =
      Real.pi / 2 := by
  have hGM : Gconst * ((10 : ℝ) ^ 15 / 66743) = 1 := by
    norm_num [Gconst]
  have hP : norm3 (⟨1, 0, 0⟩ : Vec3) = 1 := by simp [norm3]
  have hV : norm3 (⟨0, 0, 1⟩ : Vec3) = 1 := by simp [norm3]
  have hdot : dot ⟨1, 0, 0⟩ ⟨0, 0, 1⟩ = 0 := by simp [dot]
  have hevec : eVector ⟨1, 0, 0⟩ ⟨0, 0, 1⟩ (10 ^ 15 / 66743) = 0 := by
    simp only [eVector, hP, hV, hdot, hGM]
    ext <;> simp
  have he : norm3 (eVector ⟨1, 0, 0⟩ ⟨0, 0, 1⟩ (10 ^ 15 / 66743)) = 0 := by
    rw [hevec]
    simp [norm3]
  have hcross : cross ⟨1, 0, 0⟩ ⟨0, 0, 1⟩ = (⟨0, -1, 0⟩ : Vec3) := by
    simp [cross]
  have hn : cross ⟨0, 0, 1⟩ (⟨0, -1, 0⟩ : Vec3) = (⟨1, 0, 0⟩ : Vec3) := by
    simp [cross]
  have hnnorm : norm3 (cross ⟨0, 0, 1⟩ (cross ⟨1, 0, 0⟩ ⟨0, 0, 1⟩)) = 1 := by
    rw [hcross, hn, hP]
  have h0 : norm3 (0 : Vec3) = 0 := by simp [norm3]
  have hdot0 : dot ⟨1, 0, 0⟩ (0 : Vec3) = 0 := by simp [dot]
  refine ⟨he, hnnorm, ?_, ?_⟩
  · simp only [argPeriapsisChecked, hcross, hn, hP, hevec, h0, hdot0]
    rw [if_pos ⟨by norm_num, by norm_num⟩]
    simp [divChecked]
  · simp only [calculate_orbit_elements, hcross, hn, hP, hevec, h0, hdot0]
    rw [if_pos ⟨by norm_num, by norm_num⟩]
    simp [Real.arccos_zero]

end NBody

namespace NBody

theorem simLoop_bodies (G dt : ℝ) (os : ℕ) :
    ∀ (fuel t : ℕ) (st : SimState),
      (simLoop G dt os fuel t st).bodies = (verletStep G dt)^[fuel] st.bodies := by
  intro fuel
  induction fuel with
  | zero => intro t st; rfl
  | succ n ih =>
    intro t st
    rw [simLoop, ih]
    have hb : (recordSample os dt t
        { st with bodies := verletStep G dt st.bodies }).bodies =
        verletStep G dt st.bodies := by
      unfold recordSample
      by_cases h : t % os = 0 <;> simp [h]
    rw [hb, Function.iterate_succ_apply]

/-- Counterexample for C6: one simulated day with dt = 50000 s is not an
integer number of steps (86400/50000 = 1.728); the code's
`int()`-truncated `total_steps` is 1 while the claimed `ceil` is 2. -/
theorem total_steps_truncates_not_ceil :
    total_steps 1 50000 = 1 ∧ ⌈(1 : ℝ) * 86400 / 50000⌉ = 2 ∧ (1 : ℕ) ≠ 2 := by
  refine ⟨?_, ?_, by norm_num⟩
  · simp only [total_steps, pyInt, if_pos (show (0 : ℝ) ≤ 1 * 86400 / 50000 by norm_num)]
    rw [show ⌊(1 : ℝ) * 86400 / 50000⌋ = 1 by rw [Int.floor_eq_iff]; norm_num]
    rfl
  · rw [Int.ceil_eq_iff]; norm_num

/-- Claim C6 (amended): for nonnegative `total_days*86400/dt`,
`VerletIntegrator.simulate` executes exactly `⌊total_days*86400/dt⌋`
integration steps — `int()` truncation, not `ceil` — each one a
`verletStep` applied to the bodies. -/
theorem simulate_executes_floor_steps (G : ℝ) (bodies : List Body)
    (total_days dt output_interval : ℝ) (h : 0 ≤ total_days * 86400 / dt) :
    (simulateState G bodies total_days dt output_interval).bodies =
      (verletStep G dt)^[(⌊total_days * 86400 / dt⌋).toNat] bodies := by
  unfold simulateState
  rw [simLoop_bodies]
  simp [total_steps, pyInt, if_pos h]

/-- Witness for C6: the one-day, dt = 50000 s run performs
`⌊86400/50000⌋ = 1` step. -/
theorem simulate_executes_floor_steps_witness :
    (0 : ℝ) ≤ 1 * 86400 / 50000 ∧
    (simulateState 1 [⟨1, ⟨0, 0, 0⟩, ⟨1, 0, 0⟩, 0⟩] 1 50000 1).bodies =
      (verletStep 1 50000)^[(⌊(1 : ℝ) * 86400 / 50000⌋).toNat]
        [⟨1, ⟨0, 0, 0⟩, ⟨1, 0, 0⟩, 0⟩] :=
  ⟨by norm_num,
    simulate_executes_floor_steps 1 [⟨1, ⟨0, 0, 0⟩, ⟨1, 0, 0⟩, 0⟩] 1 50000 1 (by norm_num)⟩

end NBody

namespace NBody

theorem norm3_xAxis (a : ℝ) (h : 0 ≤ a) : norm3 ⟨a, 0, 0⟩ = a := by
  rw [norm3]
  simp [Real.sqrt_sq h]

theorem norm3_neg_xAxis (a : ℝ) (h : 0 ≤ a) : norm3 ⟨-a, 0, 0⟩ = a := by
  rw [norm3]
  simp [Real.sqrt_sq h]

/-- Claim C1 is violated by the code: step 4 of `simulate` reads
`velocity += 0.5 * (acceleration + acceleration) * dt` after the
acceleration field has been overwritten with the new acceleration, so the
velocity update is `vel + acc_new*dt`, not `vel + 0.5*(acc_old+acc_new)*dt`.
On a two-body system (G=1, dt=2, masses 0 and 16 at x=0 and x=4) the old and
new accelerations of body 0 are (1,0,0) and (4,0,0); the code produces
velocity (8,0,0) where the claimed velocity-Verlet update gives (5,0,0). -/
theorem velocity_update_doubles_new_acceleration :
    ((calculate_accelerations 1
        [⟨0, ⟨0, 0, 0⟩, 0, 0⟩, ⟨16, ⟨4, 0, 0⟩, 0, 0⟩]).map Body.acceleration =
      [⟨1, 0, 0⟩, ⟨0, 0, 0⟩]) ∧
    ((calculate_accelerations 1 (updatePositions 2 (calculate_accelerations 1
        [⟨0, ⟨0, 0, 0⟩, 0, 0⟩, ⟨16, ⟨4, 0, 0⟩, 0, 0⟩]))).map Body.acceleration =
      [⟨4, 0, 0⟩, ⟨0, 0, 0⟩]) ∧
    ((verletStep 1 2 [⟨0, ⟨0, 0, 0⟩, 0, 0⟩, ⟨16, ⟨4, 0, 0⟩, 0, 0⟩]).map Body.velocity =
      [⟨8, 0, 0⟩, ⟨0, 0, 0⟩]) ∧
    specVerletVelocity 2 0 ⟨1, 0, 0⟩ ⟨4, 0, 0⟩ = ⟨5, 0, 0⟩ ∧
    (⟨8, 0, 0⟩ : Vec3) ≠ ⟨5, 0, 0⟩ := by
  have h4 : norm3 (⟨4, 0, 0⟩ : Vec3) = 4 := norm3_xAxis 4 (by norm_num)
  have hm4 : norm3 (⟨-4, 0, 0⟩ : Vec3) = 4 := norm3_neg_xAxis 4 (by norm_num)
  have h2 : norm3 (⟨2, 0, 0⟩ : Vec3) = 2 := norm3_xAxis 2 (by norm_num)
  have hm2 : norm3 (⟨-2, 0, 0⟩ : Vec3) = 2 := norm3_neg_xAxis 2 (by norm_num)
  have hacc1 : calculate_accelerations 1
      [⟨0, ⟨0, 0, 0⟩, 0, 0⟩, ⟨16, ⟨4, 0, 0⟩, 0, 0⟩] =
      [⟨0, ⟨0, 0, 0⟩, 0, ⟨1, 0, 0⟩⟩, ⟨16, ⟨4, 0, 0⟩, 0, ⟨0, 0, 0⟩⟩] := by
    simp only [calculate_accelerations, accOfBody, pairContribution, List.enum,
      List.enumFrom, List.map_cons, List.map_nil, List.foldl_cons, List.foldl_nil]
    norm_num [h4, hm4, distEps, Vec3.zero_def]
  have hpos : updatePositions 2
      [⟨0, ⟨0, 0, 0⟩, 0, ⟨1, 0, 0⟩⟩, ⟨16, ⟨4, 0, 0⟩, 0, ⟨0, 0, 0⟩⟩] =
      [⟨0, ⟨2, 0, 0⟩, 0, ⟨1, 0, 0⟩⟩, ⟨16, ⟨4, 0, 0⟩, 0, ⟨0, 0, 0⟩⟩] := by
    simp only [updatePositions, List.map_cons, List.map_nil]
    norm_num [Vec3.zero_def]
    constructor <;> (ext <;> norm_num)
  have hacc2 : calculate_accelerations 1
      [⟨0, ⟨2, 0, 0⟩, 0, ⟨1, 0, 0⟩⟩, ⟨16, ⟨4, 0, 0⟩, 0, ⟨0, 0, 0⟩⟩] =
      [⟨0, ⟨2, 0, 0⟩, 0, ⟨4, 0, 0⟩⟩, ⟨16, ⟨4, 0, 0⟩, 0, ⟨0, 0, 0⟩⟩] := by
    simp only [calculate_accelerations, accOfBody, pairContribution, List.enum,
      List.enumFrom, List.map_cons, List.map_nil, List.foldl_cons, List.foldl_nil]
    norm_num [h2, hm2, distEps, Vec3.zero_def]
  have hvel : updateVelocities 2
      [⟨0, ⟨2, 0, 0⟩, 0, ⟨4, 0, 0⟩⟩, ⟨16, ⟨4, 0, 0⟩, 0, ⟨0, 0, 0⟩⟩] =
      [⟨0, ⟨2, 0, 0⟩, ⟨8, 0, 0⟩, ⟨4, 0, 0⟩⟩, ⟨16, ⟨4, 0, 0⟩, ⟨0, 0, 0⟩, ⟨0, 0, 0⟩⟩] := by
    simp only [updateVelocities, List.map_cons, List.map_nil]
    norm_num [Vec3.zero_def]
  refine ⟨by rw [hacc1]; rfl, by rw [hacc1, hpos, hacc2]; rfl, ?_, ?_, ?_⟩
  · rw [verletStep, hacc1, hpos, hacc2, hvel]
    rfl
  · rw [specVerletVelocity, Vec3.zero_def]
    ext <;> norm_num
  · intro h
    have := congrArg Vec3.x h
    norm_num at this

end NBody

namespace NBody

@[simp] theorem Vec3.smul_zero (c : ℝ) : c • (0 : Vec3) = 0 := by
  ext <;> simp

theorem verletStep_single (G dt : ℝ) (b : Body) :
    verletStep G dt [b] =
      [{ b with position := b.position + dt • b.velocity, acceleration := 0 }] := by
  simp [verletStep, calculate_accelerations, accOfBody, updatePositions,
    updateVelocities, List.enum, List.enumFrom]

end NBody

namespace NBody

/-- Claim C2 is violated by the code: in the `simulate` loop the `t = 0`
recording happens after the first integration step and writes at
`output_idx = 0`, overwriting the saved initial state.  For a single body of
velocity (1,0,0) starting at the origin (dt = 86400 s, two days, one-day
output interval) the returned trajectory is
`([0, 1], [[(86400,0,0)], [(172800,0,0)]], ...)`: the recorded times are
strictly increasing and one output interval apart, but sample 0 holds the
post-first-step position (86400,0,0) at time 0, not the initial condition
(0,0,0). -/
theorem sample_zero_is_overwritten :
    simulate 1 [⟨1, ⟨0, 0, 0⟩, ⟨1, 0, 0⟩, 0⟩] 2 86400 1 =
      ([0, 1], [[⟨86400, 0, 0⟩], [⟨172800, 0, 0⟩]], [[⟨1, 0, 0⟩], [⟨1, 0, 0⟩]]) ∧
    ([⟨1, ⟨0, 0, 0⟩, ⟨1, 0, 0⟩, 0⟩] : List Body).map Body.position = [⟨0, 0, 0⟩] ∧
    ([(⟨86400, 0, 0⟩ : Vec3)] : List Vec3) ≠ [⟨0, 0, 0⟩] := by
  have hts : total_steps 2 86400 = 2 := by
    simp only [total_steps, pyInt,
      if_pos (show (0 : ℝ) ≤ 2 * 86400 / 86400 by norm_num)]
    rw [show (2 : ℝ) * 86400 / 86400 = 2 by norm_num]
    rw [show ⌊(2 : ℝ)⌋ = 2 by norm_num]
    rfl
  have hos : output_steps 1 86400 = 1 := by
    simp only [output_steps, pyInt,
      if_pos (show (0 : ℝ) ≤ 1 * 86400 / 86400 by norm_num)]
    rw [show (1 : ℝ) * 86400 / 86400 = 1 by norm_num]
    rw [show ⌊(1 : ℝ)⌋ = 1 by norm_num]
    rfl
  have hstep1 : verletStep 1 86400 [⟨1, ⟨0, 0, 0⟩, ⟨1, 0, 0⟩, 0⟩] =
      [⟨1, ⟨86400, 0, 0⟩, ⟨1, 0, 0⟩, 0⟩] := by
    rw [verletStep_single]
    norm_num
  have hstep2 : verletStep 1 86400 [⟨1, ⟨86400, 0, 0⟩, ⟨1, 0, 0⟩, 0⟩] =
      [⟨1, ⟨172800, 0, 0⟩, ⟨1, 0, 0⟩, 0⟩] := by
    rw [verletStep_single]
    norm_num
  refine ⟨?_, rfl, ?_⟩
  · simp only [simulate, simulateState, hts, hos, simLoop, recordSample, hstep1, hstep2]
    norm_num
    rw [hstep2]
    exact ⟨rfl, rfl, rfl⟩
  · intro h
    have := congrArg (fun l => (l.getD 0 0).x) h
    norm_num at this

end NBody
